import Mathlib

/-!
Shallow embedding of the table-extraction and text-normalization core of the
gov_shutdown_prediction repository (src/presidency.py, src/html_table_parser.py,
src/get_data.py), together with theorems settling the specification claims.

Python strings are modelled as `List Char`; Python `None` as `Option.none`;
code that can raise returns `Except`.
-/

namespace GovShutdown

/-- ASCII whitespace recognised by Python's `str.strip` and the regex `\s`. -/
def isSpace (c : Char) : Bool :=
  c = ' ' || c = '\t' || c = '\n' || c = '\r' || c = '\x0b' || c = '\x0c'

/-- Python `str.strip()`: drop whitespace from both ends. -/
def trim (l : List Char) : List Char :=
  ((l.dropWhile isSpace).reverse.dropWhile isSpace).reverse

/-- Maximal runs of decimal digits in a string, in order: `re.findall(r"\d+", s)`.
The accumulator holds the current run, reversed. -/
def digitRunsAux : Option (List Char) → List Char → List (List Char)
  | cur, [] =>
    match cur with
    | some r => [r.reverse]
    | none => []
  | cur, c :: cs =>
    if c.isDigit then
      digitRunsAux (some (c :: cur.getD [])) cs
    else
      match cur with
      | some r => r.reverse :: digitRunsAux none cs
      | none => digitRunsAux none cs

def digitRuns (l : List Char) : List (List Char) :=
  digitRunsAux none l

/-- Value of a decimal digit string, as Python `int` on an all-digit string. -/
def toNatDigits (l : List Char) : Nat :=
  l.foldl (fun n c => n * 10 + (c.toNat - '0'.toNat)) 0

/-- `_normalize_year_fragment` from src/presidency.py: four-digit year from a
fragment such as `'97` or `1901`.  The Python `and anchor_year` test is truthiness,
so an anchor of `0` behaves like no anchor. -/
def normalizeYearFragment (fragment : List Char) (anchorYear : Option Nat) : Option Nat :=
  if fragment = [] then none
  else
    match (digitRuns fragment).getLast? with
    | none => none
    | some number =>
      if number.length = 4 then some (toNatDigits number)
      else
        match anchorYear with
        | some a =>
          if number.length = 2 ∧ a ≠ 0 then
            let century := (a / 100) * 100
            let candidate := century + toNatDigits number
            some (if candidate < a then candidate + 100 else candidate)
          else some (toNatDigits number)
        | none => some (toNatDigits number)

/-- Split a character list on a separator character, Python `str.split(sep)`. -/
def splitOnChar (sep : Char) : List Char → List (List Char)
  | [] => [[]]
  | c :: cs =>
    if c = sep then [] :: splitOnChar sep cs
    else
      match splitOnChar sep cs with
      | r :: rs => (c :: r) :: rs
      | [] => [[c]]

/-- The cleaning phase of `_split_term_range`: delete `*` and `†`, then turn
em-dashes and hyphens into en-dashes. -/
def cleanTerm (term : List Char) : List Char :=
  (term.filter (fun c => !(c = '*' || c = '†'))).map
    (fun c => if c = '—' || c = '-' then '–' else c)

/-- The non-empty stripped parts of the cleaned term, split on the en-dash. -/
def termParts (term : List Char) : List (List Char) :=
  ((splitOnChar '–' (cleanTerm term)).map trim).filter (fun p => p ≠ [])

/-- `_split_term_range` from src/presidency.py (the `isinstance` guard is
subsumed by typing the argument as a string). -/
def splitTermRange (term : List Char) : Option Nat × Option Nat :=
  match termParts term with
  | [] => (none, none)
  | p0 :: rest =>
    let startYear := normalizeYearFragment p0 none
    let endYear :=
      match rest with
      | [] => startYear
      | p1 :: _ => normalizeYearFragment p1 startYear
    (startYear, endYear)

/-! ## The HTML table extractor (`SimpleHTMLTableParser` of src/html_table_parser.py,
identical to `_SimpleHTMLTableParser` of src/get_data.py).

Python's `html.parser.HTMLParser` tokenizes markup into start-tag, end-tag and
text events and never raises on malformed markup; the repository's code is the
three handler overrides, so the embedding works on the event stream.  A raised
`AttributeError` (`None.append`) is modelled as `Except.error ()`. -/

inductive Event where
  | startTag (tag : List Char)
  | endTag (tag : List Char)
  | data (text : List Char)
deriving DecidableEq

/-- One extracted table: header cells and data rows. -/
abbrev RawTable := List (List Char) × List (List (List Char))

/-- The handler object's mutable fields.  `cell` holds the list of appended
chunks (joined on cell close). -/
structure PState where
  tables : List RawTable
  inTable : Bool
  header : Option (List (List Char))
  rows : Option (List (List (List Char)))
  row : Option (List (List Char))
  cell : Option (List (List Char))
deriving DecidableEq

def initState : PState :=
  { tables := [], inTable := false, header := none, rows := none,
    row := none, cell := none }

def tagTable : List Char := ['t', 'a', 'b', 'l', 'e']
def tagTr : List Char := ['t', 'r']
def tagTd : List Char := ['t', 'd']
def tagTh : List Char := ['t', 'h']
def tagBr : List Char := ['b', 'r']

/-- `handle_starttag`: attributes are unused by the source, so they are omitted.
Never raises. -/
def handleStartTag (s : PState) (tag : List Char) : PState :=
  if tag = tagTable ∧ s.inTable = false then
    { s with inTable := true, header := none, rows := some [] }
  else if s.inTable ∧ tag = tagTr then
    { s with row := some [] }
  else if s.inTable ∧ (tag = tagTd ∨ tag = tagTh) then
    { s with cell := some [] }
  else if s.inTable ∧ tag = tagBr ∧ s.cell.isSome then
    { s with cell := some (s.cell.getD [] ++ [['\n']]) }
  else s

/-- `handle_endtag`.  `self._current_row.append(...)` (resp.
`self._current_rows.append(...)`) raises `AttributeError` when the field is
`None`; those points return `Except.error ()`.  Python's `x or []` on the
header/rows fields is `Option.getD` here (both give `[]` for an empty list). -/
def handleEndTag (s : PState) (tag : List Char) : Except Unit PState :=
  if tag = tagTable ∧ s.inTable then
    .ok { s with tables := s.tables ++ [(s.header.getD [], s.rows.getD [])],
                 inTable := false, header := none, rows := none }
  else if s.inTable ∧ (tag = tagTd ∨ tag = tagTh) ∧ s.cell.isSome then
    let text := trim (s.cell.getD []).flatten
    match s.row with
    | none => .error ()
    | some r => .ok { s with row := some (r ++ [text]), cell := none }
  else if s.inTable ∧ tag = tagTr ∧ s.row.isSome then
    match s.header with
    | none => .ok { s with header := s.row, row := none }
    | some _ =>
      match s.rows with
      | none => .error ()
      | some rs => .ok { s with rows := some (rs ++ [s.row.getD []]), row := none }
  else .ok s

/-- `handle_data`: never raises. -/
def handleData (s : PState) (text : List Char) : PState :=
  if s.inTable ∧ s.cell.isSome then
    { s with cell := some (s.cell.getD [] ++ [text]) }
  else s

def step (s : PState) : Event → Except Unit PState
  | .startTag tag => .ok (handleStartTag s tag)
  | .endTag tag => handleEndTag s tag
  | .data text => .ok (handleData s text)

instance {ε α : Type} [DecidableEq ε] [DecidableEq α] :
    DecidableEq (Except ε α) := fun a b =>
  match a, b with
  | .error u, .error v =>
    if h : u = v then .isTrue (by rw [h]) else .isFalse (by simp [h])
  | .ok x, .ok y =>
    if h : x = y then .isTrue (by rw [h]) else .isFalse (by simp [h])
  | .error _, .ok _ => .isFalse (by simp)
  | .ok _, .error _ => .isFalse (by simp)

/-- Feeding a stream of events to the handlers, stopping at the first raise. -/
def runEvents (s : PState) : List Event → Except Unit PState
  | [] => .ok s
  | e :: es =>
    match step s e with
    | .error u => .error u
    | .ok s' => runEvents s' es

/-! ## Normalization and frame building
(`normalize_header`, `_normalize_row`, `_scrape_tables_without_optional_dependencies`
of src/html_table_parser.py; `_normalize_header`, `_normalize_row`,
`_scrape_table_without_optional_dependencies` of src/get_data.py are identical
on the first table). -/

/-- Collapse each maximal run of whitespace to a single space,
`re.sub(r"\s+", " ", value)`.  The flag records whether the previous character
was whitespace. -/
def collapseWsAux : Bool → List Char → List Char
  | _, [] => []
  | prev, c :: cs =>
    if isSpace c then
      if prev then collapseWsAux true cs else ' ' :: collapseWsAux true cs
    else c :: collapseWsAux false cs

/-- `normalize_header`: replace `*` with a space, collapse whitespace runs,
strip both ends. -/
def normalizeHeader (value : List Char) : List Char :=
  trim (collapseWsAux false (value.map (fun c => if c = '*' then ' ' else c)))

/-- `_normalize_row`: pad with empty-string cells up to `width`, then truncate
to `width` (`max(0, ...)` is Nat subtraction). -/
def normalizeRow (row : List (List Char)) (width : Nat) : List (List Char) :=
  (row ++ List.replicate (width - row.length) []).take width

/-- A parsed frame, standing for the `pd.DataFrame(normalized_rows, columns)`:
normalized column names and width-normalized rows. -/
abbrev Frame := List (List Char) × List (List (List Char))

/-- The body of the per-table loop in
`_scrape_tables_without_optional_dependencies`: normalize headers, keep the
rows with some non-blank cell, width-normalize the kept rows. -/
def buildFrame (t : RawTable) : Frame :=
  let columns := t.1.map normalizeHeader
  (columns,
    (t.2.filter (fun row => row.any (fun c => trim c ≠ []))).map
      (fun row => normalizeRow row columns.length))

inductive ScrapeErr where
  | handlerRaise
  | noTablesFound
deriving DecidableEq

/-- `_scrape_tables_without_optional_dependencies`, after the fetch (the network
fetch is an external collaborator; its decoded text is the event stream here):
feed the events, raise `ValueError` when no tables were found, otherwise build
one frame per table. -/
def scrapeTables (events : List Event) : Except ScrapeErr (List Frame) :=
  match runEvents initState events with
  | .error _ => .error .handlerRaise
  | .ok s =>
    if s.tables = [] then .error .noTablesFound
    else .ok (s.tables.map buildFrame)

inductive LoadErr where
  | outOfRange
  | listIndexRaise
deriving DecidableEq

/-- Python list subscription `l[i]` with negative-index support; `none` is the
interpreter's own IndexError. -/
def pyListGet (l : List Frame) (i : Int) : Option Frame :=
  if 0 ≤ i then l.get? i.toNat
  else if i.natAbs ≤ l.length then l.get? (l.length - i.natAbs)
  else none

/-- `load_html_table` of src/html_table_parser.py, applied to the already
extracted Table Collection: the explicit `IndexError` is raised only when
`table_index >= len(tables)`; otherwise Python subscription runs. -/
def loadHtmlTable (tables : List Frame) (tableIndex : Int) : Except LoadErr Frame :=
  if (tables.length : Int) ≤ tableIndex then .error .outOfRange
  else
    match pyListGet tables tableIndex with
    | some t => .ok t
    | none => .error .listIndexRaise

/-! ## The shutdown mapper's `date_range` derivation
(`_build_date_range` inside `collect_shutdowns` of src/get_data.py).
A cell is `Option (List Char)`: `none` is a missing (NaN) value, on which
`pd.notna` is false. -/

/-- One iteration of the loop body of `_build_date_range`: keep the trimmed
text when the value is present and non-blank. -/
def appendPart (parts : List (List Char)) (value : Option (List Char)) :
    List (List Char) :=
  match value with
  | none => parts
  | some x =>
    let text := trim x
    if text = [] then parts else parts ++ [text]

/-- Python `sep.join(parts)`. -/
def joinWith (sep : List Char) : List (List Char) → List Char
  | [] => []
  | x :: xs =>
    match xs with
    | [] => x
    | _ => x ++ sep ++ joinWith sep xs

/-- The en-dash separator `" – "` used by `_build_date_range`. -/
def dashSep : List Char := [' ', '–', ' ']

/-- `_build_date_range`: the loop over `(funding_gap_start, funding_gap_end)`
unrolled over its two fixed columns. -/
def buildDateRange (fundingGapStart fundingGapEnd : Option (List Char)) :
    List Char :=
  joinWith dashSep (appendPart (appendPart [] fundingGapStart) fundingGapEnd)

/-- Modelled from the spec for the refinement claim about `date_range`: join
with the en-dash separator the trimmed values of the two fields that are
non-null and non-empty. -/
def dateRangeSpec (fundingGapStart fundingGapEnd : Option (List Char)) :
    List Char :=
  joinWith dashSep
    ((([fundingGapStart, fundingGapEnd].filterMap id).map trim).filter
      (fun t => t ≠ []))

/-- Whether the event stream contains a `table` start tag (a `<table>` element
in the markup). -/
def hasTableStart (events : List Event) : Bool :=
  events.any fun e =>
    match e with
    | .startTag tag => decide (tag = tagTable)
    | _ => false

/-- Event stream of the markup
`<table><tr><th>H</th></tr><tr><td></td><td>x</td></tr></table>`:
a one-column table whose data row is wider than the header and whose only
non-blank cell sits in the excess column. -/
def blankRowEvents : List Event :=
  [Event.startTag tagTable, Event.startTag tagTr, Event.startTag tagTh,
   Event.data ['H'], Event.endTag tagTh, Event.endTag tagTr,
   Event.startTag tagTr, Event.startTag tagTd, Event.endTag tagTd,
   Event.startTag tagTd, Event.data ['x'], Event.endTag tagTd,
   Event.endTag tagTr, Event.endTag tagTable]

/-! ### Abstraction for extractor safety

The handlers can raise: closing a cell while no row is open appends to a
`None` row.  The abstraction below tracks the three booleans (table open,
row open, cell open) that decide every branch, and `stepSafeB` rules out the
two transitions that break the invariant "an open cell implies an open row":
opening a cell while no row is open, and closing a row while a cell is open. -/

def stepSafeB (t r c : Bool) : Event → Option (Bool × Bool × Bool)
  | .startTag tag =>
    if tag = tagTable ∧ t = false then some (true, r, c)
    else if t ∧ tag = tagTr then some (t, true, c)
    else if t ∧ (tag = tagTd ∨ tag = tagTh) then
      if r then some (t, r, true) else none
    else some (t, r, c)
  | .endTag tag =>
    if tag = tagTable ∧ t then some (false, r, c)
    else if t ∧ (tag = tagTd ∨ tag = tagTh) ∧ c then some (t, r, false)
    else if t ∧ tag = tagTr ∧ r then
      if c then none else some (t, false, c)
    else some (t, r, c)
  | .data _ => some (t, r, c)

/-- Event streams on which the handlers are raise-free: every cell start tag
inside a table arrives while a row is open, and every row end tag inside a
table arrives while no cell is open. -/
def eventsSafe : Bool → Bool → Bool → List Event → Bool
  | _, _, _, [] => true
  | t, r, c, e :: es =>
    match stepSafeB t r c e with
    | none => false
    | some (t', r', c') => eventsSafe t' r' c' es

/-! ## Shared lemmas about row normalization -/

lemma normalizeRow_length (row : List (List Char)) (w : Nat) :
    (normalizeRow row w).length = w := by
  simp only [normalizeRow, List.length_take, List.length_append,
    List.length_replicate]
  omega

lemma normalizeRow_of_le (row : List (List Char)) (w : Nat)
    (h : row.length ≤ w) :
    normalizeRow row w = row ++ List.replicate (w - row.length) [] := by
  apply List.take_of_length_le
  simp only [List.length_append, List.length_replicate]
  omega

lemma normalizeRow_of_ge (row : List (List Char)) (w : Nat)
    (h : w ≤ row.length) :
    normalizeRow row w = row.take w := by
  unfold normalizeRow
  have hz : w - row.length = 0 := by omega
  rw [hz]
  simp

lemma normalizeRow_fixed (row : List (List Char)) (w : Nat)
    (h : row.length = w) : normalizeRow row w = row := by
  rw [normalizeRow_of_le row w (by omega)]
  simp [h]

/-- C5: row normalization returns a row of length exactly the header width:
shorter rows are extended with empty-string cells at the end, longer rows are
truncated to the first `w` cells. -/
theorem normalizeRow_width_exact (row : List (List Char)) (w : Nat) :
    (normalizeRow row w).length = w ∧
    (row.length ≤ w →
      normalizeRow row w = row ++ List.replicate (w - row.length) []) ∧
    (w ≤ row.length → normalizeRow row w = row.take w) :=
  ⟨normalizeRow_length row w, normalizeRow_of_le row w, normalizeRow_of_ge row w⟩

/-- Witness for C5 at a short row and a long row. -/
theorem normalizeRow_width_exact_witness :
    (normalizeRow [['a']] 3).length = 3 ∧
    normalizeRow [['a']] 3 = [['a']] ++ List.replicate 2 [] ∧
    normalizeRow [[], ['x']] 1 = [[], ['x']].take 1 :=
  ⟨(normalizeRow_width_exact [['a']] 3).1,
   by
    have h := (normalizeRow_width_exact [['a']] 3).2.1 (by decide)
    simpa using h,
   (normalizeRow_width_exact [[], ['x']] 1).2.2 (by decide)⟩

/-- C6: row-width normalization is idempotent: normalizing an already
normalized row at the same width returns it unchanged. -/
theorem normalizeRow_idempotent (row : List (List Char)) (w : Nat) :
    normalizeRow (normalizeRow row w) w = normalizeRow row w :=
  normalizeRow_fixed _ w (normalizeRow_length row w)

/-- C8: a term string with a single non-empty part after cleaning yields
identical start and end years; in particular `"1841"` yields
`term_start = term_end = 1841`. -/
theorem singlePartTerm_same_years :
    (∀ term p, termParts term = [p] →
      (splitTermRange term).1 = (splitTermRange term).2) ∧
    splitTermRange "1841".toList = (some 1841, some 1841) := by
  refine ⟨?_, by decide⟩
  intro term p h
  simp [splitTermRange, h]

/-- Witness for C8 at the term string `"1841"`. -/
theorem singlePartTerm_same_years_witness :
    (splitTermRange "1841".toList).1 = (splitTermRange "1841".toList).2 :=
  singlePartTerm_same_years.1 "1841".toList "1841".toList (by decide)

/-- C9: `date_range` is the join, with the en-dash separator, of the non-null
non-empty trimmed values of `funding_gap_start` and `funding_gap_end`; it is
empty when both are missing, and the concrete 1976 row joins as specified. -/
theorem buildDateRange_refines_spec :
    (∀ s e, buildDateRange s e = dateRangeSpec s e) ∧
    buildDateRange (some "Sept. 30, 1976".toList)
        (some "Oct. 11, 1976".toList) =
      "Sept. 30, 1976 – Oct. 11, 1976".toList ∧
    buildDateRange none none = [] := by
  refine ⟨?_, by decide, by decide⟩
  intro s e
  cases s with
  | none =>
    cases e with
    | none => simp [buildDateRange, dateRangeSpec, appendPart]
    | some y =>
      by_cases hy : trim y = [] <;>
        simp [buildDateRange, dateRangeSpec, appendPart, hy]
  | some x =>
    cases e with
    | none =>
      by_cases hx : trim x = [] <;>
        simp [buildDateRange, dateRangeSpec, appendPart, hx]
    | some y =>
      by_cases hx : trim x = [] <;> by_cases hy : trim y = [] <;>
        simp [buildDateRange, dateRangeSpec, appendPart, hx, hy]

/-- C1: when the second part's last digit run has exactly two digits and the
first part resolved to an anchor year, the end year is
`(anchor / 100) * 100 + twoDigits`, plus `100` when that candidate is below
the anchor.  (When the anchor is `0` the two-digit branch is skipped by
Python truthiness, but the formula then also gives the raw two-digit value,
so no positivity hypothesis is needed.) -/
theorem twoDigitEndFragment_century (term p0 p1 : List Char)
    (rest : List (List Char)) (a : Nat) (ds : List Char)
    (hparts : termParts term = p0 :: p1 :: rest)
    (hanchor : normalizeYearFragment p0 none = some a)
    (hds : (digitRuns p1).getLast? = some ds)
    (hlen : ds.length = 2) :
    (splitTermRange term).2 =
      some (if (a / 100) * 100 + toNatDigits ds < a
            then (a / 100) * 100 + toNatDigits ds + 100
            else (a / 100) * 100 + toNatDigits ds) := by
  have hp1 : ¬ p1 = [] := by
    intro h
    rw [h] at hds
    simp [digitRuns, digitRunsAux] at hds
  have hne4 : ¬ ds.length = 4 := by omega
  simp only [splitTermRange, hparts, hanchor]
  by_cases ha : a = 0
  · subst ha
    simp [normalizeYearFragment, hp1, hds, hne4]
  · simp [normalizeYearFragment, hp1, hds, hne4, hlen, ha]

/-- Witness for C1: the term string `"1897–'01"` yields `term_end = 1901`,
not `1801`. -/
theorem twoDigitEndFragment_century_witness :
    (splitTermRange "1897–'01".toList).2 = some 1901 := by
  have h := twoDigitEndFragment_century "1897–'01".toList "1897".toList
    "'01".toList [] 1897 ['0', '1'] (by decide) (by decide) (by decide)
    (by decide)
  norm_num at h
  exact h

/-- C10: the explicit out-of-range error of `load_html_table` fires exactly
when `table_index` is at least the number of extracted tables; a negative
index whose absolute value is at most the number of tables returns the table
counted from the end. -/
theorem loadHtmlTable_index_behavior (tables : List Frame) (i : Int) :
    (loadHtmlTable tables i = .error .outOfRange ↔ (tables.length : Int) ≤ i) ∧
    (i < 0 → i.natAbs ≤ tables.length →
      ∃ t, tables.get? (tables.length - i.natAbs) = some t ∧
        loadHtmlTable tables i = .ok t) := by
  constructor
  · constructor
    · intro h
      by_contra hlt
      rw [loadHtmlTable, if_neg hlt] at h
      cases hget : pyListGet tables i <;> rw [hget] at h <;> simp at h
    · intro h
      simp [loadHtmlTable, h]
  · intro hneg habs
    have hlt : ¬ ((tables.length : Int) ≤ i) := by omega
    have hidx : tables.length - i.natAbs < tables.length := by omega
    refine ⟨tables.get ⟨tables.length - i.natAbs, hidx⟩,
      List.get?_eq_get hidx, ?_⟩
    have h0 : ¬ (0 ≤ i) := by omega
    rw [loadHtmlTable, if_neg hlt, pyListGet, if_neg h0, if_pos habs,
      List.get?_eq_get hidx]

/-- Witness for C10: on a two-table collection, index `-1` returns the last
table and index `5` is out of range. -/
theorem loadHtmlTable_index_behavior_witness :
    (∃ t, [(([] : List (List Char)), ([] : List (List (List Char)))),
           ([['b']], [])].get?
        ([(([] : List (List Char)), ([] : List (List (List Char)))),
          ([['b']], [])].length - (Int.natAbs (-1))) = some t ∧
      loadHtmlTable [(([] : List (List Char)), ([] : List (List (List Char)))),
        ([['b']], [])] (-1) = .ok t) ∧
    loadHtmlTable [(([] : List (List Char)), ([] : List (List (List Char)))),
      ([['b']], [])] 5 = .error .outOfRange :=
  ⟨(loadHtmlTable_index_behavior _ (-1)).2 (by decide) (by decide),
   (loadHtmlTable_index_behavior _ 5).1.2 (by decide)⟩

/-! ## Lemmas about the event-driven extractor -/

lemma runEvents_append (a b : List Event) :
    ∀ s : PState, runEvents s (a ++ b) =
      match runEvents s a with
      | .error u => .error u
      | .ok s' => runEvents s' b := by
  induction a with
  | nil => intro s; simp [runEvents]
  | cons e es ih =>
    intro s
    simp only [List.cons_append, runEvents]
    cases step s e with
    | error u => rfl
    | ok s' => exact ih s'

lemma handleStartTag_table_open (s : PState) (h : s.inTable = true) :
    handleStartTag s tagTable = s := by
  have h2 : ¬ tagTable = tagTr := by decide
  have h3 : ¬ tagTable = tagTd := by decide
  have h4 : ¬ tagTable = tagTh := by decide
  have h5 : ¬ tagTable = tagBr := by decide
  simp [handleStartTag, h, h2, h3, h4, h5]

/-- C3: a `table` start tag arriving while a table is already open is ignored
entirely: the whole extraction result is the same as without that event. -/
theorem nestedTable_ignored (pre post : List Event) (s : PState)
    (hrun : runEvents initState pre = .ok s) (hopen : s.inTable = true) :
    runEvents initState (pre ++ Event.startTag tagTable :: post) =
      runEvents initState (pre ++ post) := by
  rw [runEvents_append, runEvents_append, hrun]
  show runEvents s (Event.startTag tagTable :: post) = runEvents s post
  simp only [runEvents, step, handleStartTag_table_open s hopen]

/-- Witness for C3: inside an open table, a nested `table` start tag does not
change the extraction of the enclosing markup. -/
theorem nestedTable_ignored_witness :
    runEvents initState
      ([Event.startTag tagTable] ++ Event.startTag tagTable ::
        [Event.endTag tagTable]) =
    runEvents initState ([Event.startTag tagTable] ++ [Event.endTag tagTable]) :=
  nestedTable_ignored [Event.startTag tagTable] [Event.endTag tagTable]
    { tables := [], inTable := true, header := none, rows := some [],
      row := none, cell := none }
    (by decide) rfl

lemma handleEndTag_notInTable (s : PState) (tag : List Char)
    (h : s.inTable = false) : handleEndTag s tag = .ok s := by
  simp [handleEndTag, h]

lemma runEvents_noTableStart (events : List Event) :
    ∀ s : PState, s.inTable = false → hasTableStart events = false →
      runEvents s events = .ok s := by
  induction events with
  | nil => intro s _ _; rfl
  | cons e es ih =>
    intro s h hno
    simp only [hasTableStart, List.any_cons, Bool.or_eq_false_iff] at hno
    obtain ⟨hno1, hno2⟩ := hno
    have hes : hasTableStart es = false := hno2
    cases e with
    | startTag tag =>
      have hne : ¬ tag = tagTable := by
        simpa using hno1
      have hstep : handleStartTag s tag = s := by
        simp [handleStartTag, h, hne]
      simp only [runEvents, step, hstep]
      exact ih s h hes
    | endTag tag =>
      simp only [runEvents, step, handleEndTag_notInTable s tag h]
      exact ih s h hes
    | data text =>
      have hstep : handleData s text = s := by
        simp [handleData, h]
      simp only [runEvents, step, hstep]
      exact ih s h hes

/-- C4: markup with zero `<table>` elements makes extraction report the
"no tables found" error rather than succeed with an empty collection. -/
theorem scrape_noTables_error (events : List Event)
    (h : hasTableStart events = false) :
    scrapeTables events = .error .noTablesFound := by
  unfold scrapeTables
  rw [runEvents_noTableStart events initState rfl h]
  rfl

/-- Witness for C4 on table-free markup events (stray end tags and text
included). -/
theorem scrape_noTables_error_witness :
    scrapeTables [Event.data ['h', 'i'], Event.endTag tagTable,
      Event.startTag tagTr] = .error .noTablesFound :=
  scrape_noTables_error _ (by decide)

/-- C7 counterexample: the empty-row filter runs before width normalization,
so truncating the kept row `["", "x"]` to the one-column header produces the
output row `[""]`, whose every cell trims to empty. -/
theorem blankRow_in_output_counterexample :
    ∃ frames, scrapeTables blankRowEvents = .ok frames ∧
      ∃ f ∈ frames, ∃ row ∈ f.2, row ≠ [] ∧ ∀ c ∈ row, trim c = [] := by
  refine ⟨[([['H']], [[[]]])], by decide, ([['H']], [[[]]]), by simp,
    [[]], by simp, by simp, ?_⟩
  intro c hc
  simp only [List.mem_singleton] at hc
  subst hc
  rfl

/-- C7 amended: a row whose every cell trims to empty is dropped before the
output is built (filtering it away changes nothing), and in a table none of
whose raw rows is wider than the header, no output row has all cells blank. -/
theorem buildFrame_blankRow_filter (header : List (List Char))
    (rows : List (List (List Char))) :
    buildFrame (header, rows) =
      buildFrame (header, rows.filter (fun r => r.any (fun c => trim c ≠ []))) ∧
    ((∀ r ∈ rows, r.length ≤ header.length) →
      ∀ row ∈ (buildFrame (header, rows)).2, ∃ c ∈ row, trim c ≠ []) := by
  constructor
  · simp [buildFrame, List.filter_filter]
  · intro hw row hrow
    simp only [buildFrame, List.mem_map, List.mem_filter] at hrow
    obtain ⟨r0, ⟨hr0mem, hr0keep⟩, hrow⟩ := hrow
    have hkeep : ∃ c ∈ r0, trim c ≠ [] := by
      simpa using hr0keep
    obtain ⟨c, hcmem, hcne⟩ := hkeep
    have hwidth : (header.map normalizeHeader).length = header.length :=
      List.length_map _ _
    have hle : r0.length ≤ (header.map normalizeHeader).length := by
      rw [hwidth]; exact hw r0 hr0mem
    rw [← hrow, normalizeRow_of_le r0 _ hle]
    exact ⟨c, List.mem_append_left _ hcmem, hcne⟩

/-- Witness for the C7 amended theorem on a table whose row fits the header
width. -/
theorem buildFrame_blankRow_filter_witness :
    ∃ c ∈ ([['x']] : List (List Char)), trim c ≠ [] :=
  (buildFrame_blankRow_filter [['H']] [[['x']]]).2 (by decide) [['x']]
    (by decide)

/-! ## Safety of the extractor (C2) -/

lemma step_safe_ok (s : PState) (e : Event) (t' r' c' : Bool)
    (hcr : s.cell.isSome = true → s.row.isSome = true)
    (htr : s.inTable = true → s.rows.isSome = true)
    (hsafe : stepSafeB s.inTable s.row.isSome s.cell.isSome e =
      some (t', r', c')) :
    ∃ s₂, step s e = .ok s₂ ∧ s₂.inTable = t' ∧ s₂.row.isSome = r' ∧
      s₂.cell.isSome = c' ∧
      (s₂.cell.isSome = true → s₂.row.isSome = true) ∧
      (s₂.inTable = true → s₂.rows.isSome = true) := by
  cases e with
  | startTag tag =>
    simp only [step, stepSafeB] at hsafe ⊢
    unfold handleStartTag
    split_ifs at hsafe ⊢ with h1 h2 h3 h4 h5 <;> simp_all
  | endTag tag =>
    simp only [step, stepSafeB] at hsafe ⊢
    unfold handleEndTag
    split_ifs at hsafe ⊢ with h1 h2 h3 h4 <;> simp_all
    · obtain ⟨r, hrow⟩ := Option.isSome_iff_exists.mp hcr
      rw [hrow]
      simp_all
    · cases hh : s.header with
      | none => simp_all
      | some hd =>
        obtain ⟨rs, hrs⟩ := Option.isSome_iff_exists.mp htr
        rw [hrs]
        simp_all
  | data text =>
    simp only [step, stepSafeB] at hsafe ⊢
    unfold handleData
    split_ifs with h1 <;> simp_all

lemma runEvents_safe_ok (events : List Event) :
    ∀ s : PState,
      eventsSafe s.inTable s.row.isSome s.cell.isSome events = true →
      (s.cell.isSome = true → s.row.isSome = true) →
      (s.inTable = true → s.rows.isSome = true) →
      ∃ sOut, runEvents s events = .ok sOut := by
  induction events with
  | nil => intro s _ _ _; exact ⟨s, rfl⟩
  | cons e es ih =>
    intro s hsafe hcr htr
    unfold eventsSafe at hsafe
    cases habs : stepSafeB s.inTable s.row.isSome s.cell.isSome e with
    | none => rw [habs] at hsafe; simp at hsafe
    | some abs' =>
      obtain ⟨t', r', c'⟩ := abs'
      rw [habs] at hsafe
      obtain ⟨s₂, hstep, ht, hr, hc, hcr₂, htr₂⟩ :=
        step_safe_ok s e t' r' c' hcr htr habs
      obtain ⟨sOut, hOut⟩ := ih s₂ (by rw [ht, hr, hc]; exact hsafe) hcr₂ htr₂
      exact ⟨sOut, by simp only [runEvents, hstep]; exact hOut⟩

/-- C2 counterexample: the markup `<table><td></td>` makes the handlers
raise — `handle_endtag("td")` appends to the still-`None` current row. -/
theorem extractor_raise_counterexample :
    runEvents initState
      [Event.startTag tagTable, Event.startTag tagTd, Event.endTag tagTd] =
      .error () := by decide

/-- C2 amended: an end tag with no matching open construct is a no-op (in
particular any end tag outside a table leaves the state unchanged), and
feeding any event stream in which cells open only while a row is open and
rows never close over an open cell (`eventsSafe`) never raises. -/
theorem extractor_no_raise_amended :
    (∀ (s : PState) (tag : List Char), s.inTable = false →
      handleEndTag s tag = .ok s) ∧
    (∀ events : List Event, eventsSafe false false false events = true →
      ∃ sOut, runEvents initState events = .ok sOut) := by
  refine ⟨handleEndTag_notInTable, ?_⟩
  intro events h
  exact runEvents_safe_ok events initState h (by simp [initState])
    (by simp [initState])

/-- Witness for the C2 amended theorem: a stray end tag is a no-op, and a
well-nested table feeds without raising. -/
theorem extractor_no_raise_amended_witness :
    handleEndTag initState tagTd = .ok initState ∧
    ∃ sOut, runEvents initState
      [Event.startTag tagTable, Event.startTag tagTr, Event.startTag tagTd,
       Event.data ['x'], Event.endTag tagTd, Event.endTag tagTr,
       Event.endTag tagTable] = .ok sOut :=
  ⟨extractor_no_raise_amended.1 initState tagTd rfl,
   extractor_no_raise_amended.2 _ (by decide)⟩

end GovShutdown
